import Mathlib

/-!
# `credentials_example.h` (PhysicalIntegration/ESP32-1)

A shallow embedding of the credentials header: its preprocessor lines, the six
declarations it holds, what a translation unit that includes it declares, and the
statements a firmware can run on the declared variables.

Comments and blank lines of the header carry no meaning and are left out.
-/

namespace Credentials

/-! ## Declarations -/

/-- The scalar types the header uses. -/
inductive BaseType
  | char
  | int
deriving DecidableEq, Repr

/-- An object type. `isConst` is the qualifier on the object itself: in
`const char* p` the pointee is const and the pointer is not, in
`const int n` the integer is const. -/
inductive CType
  | base (b : BaseType) (isConst : Bool)
  | ptr (pointee : CType) (isConst : Bool)
deriving DecidableEq, Repr

/-- Whether an object of this type is itself const (top-level qualifier). -/
def CType.isConstObject : CType → Bool
  | .base _ c => c
  | .ptr _ c => c

/-- The literals an initializer of the header is made of. -/
inductive Literal
  | str (s : String)
  | int (n : Int)
deriving DecidableEq, Repr

/-- One declaration with its initializer: `type name = init;`. -/
structure Decl where
  type : CType
  name : String
  init : Literal
deriving DecidableEq, Repr

/-- The type written `const char*`: a non-const pointer to const char. -/
def constCharPtr : CType := .ptr (.base .char true) false

/-- The type written `const int`. -/
def constInt : CType := .base .int true

/-- Line 7: `const char* ssid = "VOTRE_SSID";`. -/
def ssid : Decl := ⟨constCharPtr, "ssid", .str "VOTRE_SSID"⟩

/-- Line 8: `const char* password = "VOTRE_PASSWORD";`. -/
def password : Decl := ⟨constCharPtr, "password", .str "VOTRE_PASSWORD"⟩

/-- Line 11: `const char* mqtt_server = "192.168.1.100";`. -/
def mqtt_server : Decl := ⟨constCharPtr, "mqtt_server", .str "192.168.1.100"⟩

/-- Line 12: `const int mqtt_port = 1883;`. -/
def mqtt_port : Decl := ⟨constInt, "mqtt_port", .int 1883⟩

/-- Line 13: `const char* mqtt_user = "";`. -/
def mqtt_user : Decl := ⟨constCharPtr, "mqtt_user", .str ""⟩

/-- Line 14: `const char* mqtt_password = "";`. -/
def mqtt_password : Decl := ⟨constCharPtr, "mqtt_password", .str ""⟩

/-! ## The header and the preprocessor -/

/-- A line of the header after comments are dropped; `ifNotDefined` is `#ifndef`. -/
inductive Line
  | ifNotDefined (sym : String)
  | define (sym : String)
  | endif
  | decl (d : Decl)
deriving DecidableEq, Repr

/-- The header, lines 3 to 16. -/
def credentials_example_h : List Line :=
  [ .ifNotDefined "CREDENTIALS_H",
    .define "CREDENTIALS_H",
    .decl ssid,
    .decl password,
    .decl mqtt_server,
    .decl mqtt_port,
    .decl mqtt_user,
    .decl mqtt_password,
    .endif ]

/-- A translation unit while it is preprocessed: the symbols defined so far and
the declarations emitted so far. -/
structure TU where
  defined : List String
  decls : List Decl
deriving DecidableEq, Repr

/-- The empty translation unit. -/
def TU.empty : TU := ⟨[], []⟩

/-- Whether the lines at the current nesting of conditionals are kept: the
innermost open conditional decides (each entry already holds its parents). -/
def activeGroup : List Bool → Bool
  | [] => true
  | c :: _ => c

/-- One preprocessor line. The second component is the stack of conditionals
open in the file being read. An `#endif` with nothing open is an error. -/
def ppLine (st : TU × List Bool) : Line → Option (TU × List Bool)
  | .ifNotDefined m => some (st.1, (activeGroup st.2 && decide (m ∉ st.1.defined)) :: st.2)
  | .define m =>
      if activeGroup st.2 then some ({ st.1 with defined := m :: st.1.defined }, st.2)
      else some st
  | .endif =>
      match st.2 with
      | [] => none
      | _ :: rest => some (st.1, rest)
  | .decl d =>
      if activeGroup st.2 then some ({ st.1 with decls := st.1.decls ++ [d] }, st.2)
      else some st

/-- All lines of a file, left to right. -/
def ppLines : List Line → TU × List Bool → Option (TU × List Bool)
  | [], st => some st
  | l :: ls, st => (ppLine st l).bind (ppLines ls)

/-- `#include` of a file into a translation unit: its lines are read with no
conditional open, and none may be left open at its end. -/
def includeFile (hdr : List Line) (tu : TU) : Option TU :=
  match ppLines hdr (tu, []) with
  | some (tu', []) => some tu'
  | _ => none

/-- `#include` of the same file `n` times in a row. -/
def includeTimes (hdr : List Line) : Nat → TU → Option TU
  | 0, tu => some tu
  | n + 1, tu => (includeFile hdr tu).bind (includeTimes hdr n)

/-! ## Variables and their values -/

/-- What a variable of the header holds: a pointer to the characters of a string
literal, a null pointer, or an integer. -/
inductive Value
  | cstr (s : String)
  | null
  | int (n : Int)
deriving DecidableEq, Repr

/-- Conversion of an integer to the `int` of the ESP32 target: 32 bits, two's
complement, out-of-range values reduced modulo 2^32. -/
def wrapInt (n : Int) : Int := (n + 2147483648) % 4294967296 - 2147483648

/-- The value an object of type `t` gets from the literal `e`, `none` when the
initialization is not one of the forms covered here: a string literal into a
pointer to const char, the literal `0` into a pointer, an integer literal into
an `int`. -/
def initValue : CType → Literal → Option Value
  | .ptr (.base .char true) _, .str s => some (.cstr s)
  | .ptr _ _, .int n => if n = 0 then some .null else none
  | .base .int _, .int n => some (.int (wrapInt n))
  | _, _ => none

/-- A declared variable. -/
structure Var where
  name : String
  type : CType
  value : Value
deriving DecidableEq, Repr

/-- The variables of a program, in declaration order. -/
abbrev Env := List Var

/-- The variable called `x`. -/
def lookup : Env → String → Option Var
  | [], _ => none
  | v :: vs, x => if v.name = x then some v else lookup vs x

/-- A read of the variable `x`. -/
def read (env : Env) (x : String) : Option Value := (lookup env x).map (·.value)

/-- One declaration at namespace scope; a second definition of a name is an error. -/
def declare (env : Env) (d : Decl) : Option Env :=
  match lookup env d.name with
  | some _ => none
  | none => (initValue d.type d.init).map fun v => env ++ [⟨d.name, d.type, v⟩]

/-- The declarations of a translation unit, in order. -/
def elaborate : List Decl → Env → Option Env
  | [], env => some env
  | d :: ds, env => (declare env d).bind (elaborate ds)

/-- The variables of a firmware whose translation unit includes `hdr` once. -/
def program (hdr : List Line) : Option Env :=
  (includeFile hdr TU.empty).bind fun tu => elaborate tu.decls []

/-- A read of `x` in the firmware built with `hdr`. -/
def readField (hdr : List Line) (x : String) : Option Value :=
  (program hdr).bind fun env => read env x

/-- The names and values of all variables, in declaration order. -/
def record (hdr : List Line) : Option (List (String × Value)) :=
  (program hdr).map fun env => env.map fun v => (v.name, v.value)

/-! ## Statements -/

/-- The declared type of `x`. -/
def typeOf (env : Env) (x : String) : Option CType := (lookup env x).map (·.type)

/-- The statements that write to a variable: `x = e;` with `e` a literal, `x = y;`
with `y` a variable, and `x[i] = c;`. -/
inductive Stmt
  | assign (x : String) (e : Literal)
  | copy (x y : String)
  | store (x : String) (i : Nat) (c : Char)
deriving DecidableEq, Repr

/-- The variable a statement writes to. -/
def Stmt.target : Stmt → String
  | .assign x _ => x
  | .copy x _ => x
  | .store x _ _ => x

/-- Whether the statement takes its value from the variable `f`. -/
def Stmt.copiesFrom (f : String) : Stmt → Bool
  | .copy _ y => decide (y = f)
  | _ => false

/-- The environment with the value of `x` replaced. -/
def setValue (x : String) (v : Value) : Env → Env
  | [] => []
  | w :: ws => (if w.name = x then { w with value := v } else w) :: setValue x v ws

/-- Whether a value of type `src` converts to an object of type `dst`, for the
forms covered here: the same scalar type, or a pointer to char into a pointer to
char that does not drop a const of the pointee. -/
def assignable : CType → CType → Bool
  | .base b _, .base b' _ => decide (b = b')
  | .ptr (.base .char c) _, .ptr (.base .char c') _ => c' || !c
  | _, _ => false

/-- The value a statement writes to its target; `none` when the compiler rejects
the statement (unknown name, write to a const object, write through a pointer to
const, no conversion) or the write falls outside the string. -/
def written (env : Env) : Stmt → Option Value
  | .assign x e =>
      match typeOf env x with
      | none => none
      | some t => if t.isConstObject then none else initValue t e
  | .copy x y =>
      match typeOf env x, typeOf env y, read env y with
      | some t, some u, some v =>
          if t.isConstObject then none else if assignable u t then some v else none
      | _, _, _ => none
  | .store x i c =>
      match typeOf env x, read env x with
      | some (.ptr (.base .char false) _), some (.cstr s) =>
          if i < s.length then some (.cstr (String.mk (s.toList.set i c))) else none
      | _, _ => none

/-- One statement; `none` when it is rejected. -/
def exec (env : Env) (s : Stmt) : Option Env :=
  (written env s).map fun v => setValue s.target v env

/-- A sequence of statements, in order. -/
def run : List Stmt → Env → Option Env
  | [], env => some env
  | s :: ss, env => (exec env s).bind (run ss)

/-! ## Editing the header -/

/-- The header with the initializer of the declaration of `x` replaced by `v`. -/
def replaceInit (x : String) (v : Literal) : List Line → List Line
  | [] => []
  | .decl d :: ls => .decl (if d.name = x then { d with init := v } else d) :: replaceInit x v ls
  | l :: ls => l :: replaceInit x v ls

/-- The names a header declares, in order. -/
def declaredNames : List Line → List String
  | [] => []
  | .decl d :: ls => d.name :: declaredNames ls
  | _ :: ls => declaredNames ls

/-- The value that is a literal taken verbatim. -/
def literalValue : Literal → Value
  | .str s => .cstr s
  | .int n => .int n

/-! ## Predicates on the values -/

/-- Modelled from the spec: the MQTT client-initialization routine is not part of the
sources; by the spec an empty user and an empty password mean an anonymous connection. -/
def anonymousConnection (user pass : Value) : Bool :=
  decide (user = .cstr "") && decide (pass = .cstr "")

/-- The fields of a text between dots: `a.b` gives `a` and `b`. -/
def splitOnDot : List Char → List (List Char)
  | [] => [[]]
  | c :: cs =>
      if c = '.' then [] :: splitOnDot cs
      else
        match splitOnDot cs with
        | [] => [[c]]
        | f :: fs => (c :: f) :: fs

/-- The number a run of decimal digits denotes. -/
def decimalValue (cs : List Char) : Nat :=
  cs.foldl (fun acc c => 10 * acc + (c.toNat - 48)) 0

/-- A non-empty run of decimal digits denoting a number in 0..255. -/
def isOctet (cs : List Char) : Bool :=
  !cs.isEmpty && cs.all Char.isDigit && decide (decimalValue cs ≤ 255)

/-- A dotted-quad IPv4 address: exactly four octets between dots. -/
def isDottedQuad (s : String) : Bool :=
  decide ((splitOnDot s.toList).length = 4) && (splitOnDot s.toList).all isOctet

/-! ## Views of the variables -/

/-- The text read from a pointer to characters as a C string: the characters
before the first NUL. -/
def cString (s : String) : String :=
  String.mk (s.toList.takeWhile fun c => decide (c ≠ Char.ofNat 0))

/-- What a consumer gets from a value: the C string of a pointer to characters,
the value itself otherwise. -/
def observe : Value → Value
  | .cstr s => .cstr (cString s)
  | v => v

/-- The variables of the firmware built with the header (see `program_header`). -/
def bootEnv : Env :=
  [⟨"ssid", constCharPtr, .cstr "VOTRE_SSID"⟩,
   ⟨"password", constCharPtr, .cstr "VOTRE_PASSWORD"⟩,
   ⟨"mqtt_server", constCharPtr, .cstr "192.168.1.100"⟩,
   ⟨"mqtt_port", constInt, .int 1883⟩,
   ⟨"mqtt_user", constCharPtr, .cstr ""⟩,
   ⟨"mqtt_password", constCharPtr, .cstr ""⟩]

/-- Every variable is a `const char*` or a `const int`. -/
def headerTyped (env : Env) : Prop :=
  ∀ y t, typeOf env y = some t → t = constCharPtr ∨ t = constInt

/-- Two environments declare the same types and hold the same values except,
possibly, in `f`. -/
def agreeOff (f : String) (e1 e2 : Env) : Prop :=
  (∀ y, typeOf e1 y = typeOf e2 y) ∧ ∀ g, g ≠ f → read e1 g = read e2 g

/-! ## Lemmas on the embedding -/

/-- The firmware built with the header declares six variables. -/
theorem program_header : program credentials_example_h = some bootEnv := by
  decide

theorem lookup_name {env : Env} {y : String} {w : Var} (h : lookup env y = some w) :
    w.name = y := by
  induction env with
  | nil => simp [lookup] at h
  | cons u us ih =>
    unfold lookup at h
    split_ifs at h with hu
    · cases h; exact hu
    · exact ih h

theorem lookup_setValue (x : String) (v : Value) (env : Env) (y : String) :
    lookup (setValue x v env) y =
      (lookup env y).map fun w => if w.name = x then { w with value := v } else w := by
  induction env with
  | nil => rfl
  | cons u us ih =>
    simp only [setValue, lookup]
    by_cases hx : u.name = x
    · subst hx
      by_cases hy : u.name = y
      · subst hy
        simp
      · simp [hy, ih]
    · by_cases hy : u.name = y
      · subst hy
        simp [hx]
      · simp [hx, hy, ih]

theorem typeOf_setValue (x : String) (v : Value) (env : Env) (y : String) :
    typeOf (setValue x v env) y = typeOf env y := by
  unfold typeOf
  rw [lookup_setValue]
  cases lookup env y with
  | none => rfl
  | some w => by_cases h : w.name = x <;> simp [h]

theorem read_setValue_ne (x : String) (v : Value) (env : Env) (y : String) (h : y ≠ x) :
    read (setValue x v env) y = read env y := by
  unfold read
  rw [lookup_setValue]
  cases hl : lookup env y with
  | none => rfl
  | some w =>
    have hn : w.name ≠ x := by rw [lookup_name hl]; exact h
    simp [hn]

/-- A read of the variable just written gives the value written, when the
variable is declared. -/
theorem read_setValue_self (x : String) (v : Value) (env : Env) :
    read (setValue x v env) x = (typeOf env x).map fun _ => v := by
  unfold read typeOf
  rw [lookup_setValue]
  cases hl : lookup env x with
  | none => rfl
  | some w => simp [lookup_name hl]

/-- A statement changes no declared type. -/
theorem typeOf_exec {env env' : Env} {s : Stmt} (h : exec env s = some env') (y : String) :
    typeOf env' y = typeOf env y := by
  unfold exec at h
  cases hw : written env s with
  | none => simp [hw] at h
  | some v =>
    simp [hw] at h
    subst h
    exact typeOf_setValue _ v env y

/-- A statement changes no variable but its target. -/
theorem read_exec_ne {env env' : Env} {s : Stmt} {y : String} (h : exec env s = some env')
    (hy : y ≠ s.target) : read env' y = read env y := by
  unfold exec at h
  cases hw : written env s with
  | none => simp [hw] at h
  | some v =>
    simp [hw] at h
    subst h
    exact read_setValue_ne _ v env y hy

/-- No character can be written through a pointer to const, nor into an `int`. -/
theorem written_store_none {env : Env} (ht : headerTyped env) (x : String) (i : Nat)
    (c : Char) : written env (.store x i c) = none := by
  cases hl : typeOf env x with
  | none => simp [written, hl]
  | some t =>
    rcases ht x t hl with h | h <;> simp [written, hl, h, constCharPtr, constInt]

/-- The header types are kept by every statement. -/
theorem headerTyped_exec {env env' : Env} {s : Stmt} (ht : headerTyped env)
    (h : exec env s = some env') : headerTyped env' :=
  fun y t hyt => ht y t (by rw [← typeOf_exec h y]; exact hyt)

/-- A sequence of statements none of which writes to `f` leaves `f` as it is. -/
theorem run_read_ne (f : String) (prog : List Stmt) : ∀ (env env' : Env),
    (∀ s ∈ prog, s.target ≠ f) → run prog env = some env' → read env' f = read env f := by
  induction prog with
  | nil =>
    intro env env' _ h
    simp [run] at h
    subst h
    rfl
  | cons s ss ih =>
    intro env env' hn h
    cases he : exec env s with
    | none => simp [run, he] at h
    | some e1 =>
      simp [run, he] at h
      rw [ih e1 env' (fun t ht => hn t (List.mem_cons_of_mem _ ht)) h]
      exact read_exec_ne he (fun hf => hn s (List.mem_cons_self _ _) hf.symm)

/-- Header types carry over between environments that declare the same types. -/
theorem headerTyped_of_agree {f : String} {e1 e2 : Env} (ht : headerTyped e1)
    (ha : agreeOff f e1 e2) : headerTyped e2 :=
  fun y t hyt => ht y t (by rw [ha.1 y]; exact hyt)

/-- A statement that does not copy from `f` writes the same value in two
environments that agree off `f`. -/
theorem written_agree {f : String} {e1 e2 : Env} (ht : headerTyped e1)
    (ha : agreeOff f e1 e2) {s : Stmt} (hs : s.copiesFrom f = false) :
    written e1 s = written e2 s := by
  cases s with
  | assign x e => simp [written, ha.1 x]
  | copy x y =>
    have hy : y ≠ f := by simpa [Stmt.copiesFrom] using hs
    simp [written, ha.1 x, ha.1 y, ha.2 y hy]
  | store x i c =>
    rw [written_store_none ht, written_store_none (headerTyped_of_agree ht ha)]

/-- Agreement off `f` is kept by a statement that does not copy from `f`. -/
theorem exec_agree {f : String} {e1 e2 e1' : Env} (ht : headerTyped e1)
    (ha : agreeOff f e1 e2) {s : Stmt} (hs : s.copiesFrom f = false)
    (h : exec e1 s = some e1') : ∃ e2', exec e2 s = some e2' ∧ agreeOff f e1' e2' := by
  unfold exec at h
  cases hw : written e1 s with
  | none => simp [hw] at h
  | some v =>
    simp [hw] at h
    subst h
    refine ⟨setValue s.target v e2, by simp [exec, ← written_agree ht ha hs, hw], ?_, ?_⟩
    · intro y
      rw [typeOf_setValue, typeOf_setValue]
      exact ha.1 y
    · intro g hg
      by_cases hgt : g = s.target
      · subst hgt
        rw [read_setValue_self, read_setValue_self, ha.1]
      · rw [read_setValue_ne _ _ _ _ hgt, read_setValue_ne _ _ _ _ hgt]
        exact ha.2 g hg

/-- Agreement off `f` is kept by a sequence of statements none of which copies
from `f`, and the sequence is accepted in both environments. -/
theorem run_agree (f : String) (prog : List Stmt) : ∀ (e1 e2 e1' : Env), headerTyped e1 →
    agreeOff f e1 e2 → (∀ s ∈ prog, s.copiesFrom f = false) → run prog e1 = some e1' →
    ∃ e2', run prog e2 = some e2' ∧ agreeOff f e1' e2' := by
  induction prog with
  | nil =>
    intro e1 e2 e1' _ ha _ h
    simp [run] at h
    subst h
    exact ⟨e2, rfl, ha⟩
  | cons s ss ih =>
    intro e1 e2 e1' ht ha hn h
    cases he : exec e1 s with
    | none => simp [run, he] at h
    | some m1 =>
      simp [run, he] at h
      obtain ⟨m2, hm2, ham⟩ := exec_agree ht ha (hn s (List.mem_cons_self _ _)) he
      obtain ⟨e2', hr, hfin⟩ := ih m1 m2 e1' (headerTyped_exec ht he) ham
        (fun t ht' => hn t (List.mem_cons_of_mem _ ht')) h
      exact ⟨e2', by simp [run, hm2, hr], hfin⟩

/-- The header types hold of the firmware's variables. -/
theorem headerTyped_boot : headerTyped bootEnv := by
  intro y t h
  simp only [typeOf, lookup, bootEnv] at h
  split_ifs at h <;> simp at h <;> simp [← h]

/-- A text with no NUL inside is its own C string. -/
theorem cString_eq_self (s : String) (h : Char.ofNat 0 ∉ s.toList) : cString s = s := by
  unfold cString
  have : (s.toList.takeWhile fun c => decide (c ≠ Char.ofNat 0)) = s.toList := by
    rw [List.takeWhile_eq_self_iff]
    intro c hc
    simp only [decide_eq_true_eq]
    rintro rfl
    exact h hc
  rw [this]
  cases s
  rfl

/-- The firmware built from the header with one initializer replaced by a literal
its type holds: the variables of the unedited firmware, with that one value set. -/
theorem program_replaceInit (f : String) (v : Literal)
    (hf : f ∈ declaredNames credentials_example_h)
    (hv : (f ≠ "mqtt_port" ∧ ∃ s, v = .str s) ∨
      (f = "mqtt_port" ∧ ∃ n : Int, v = .int n ∧ -2147483648 ≤ n ∧ n ≤ 2147483647)) :
    program (replaceInit f v credentials_example_h)
      = some (setValue f (literalValue v) bootEnv) := by
  simp only [declaredNames, credentials_example_h, ssid, password, mqtt_server, mqtt_port,
    mqtt_user, mqtt_password, List.mem_cons, List.mem_singleton, List.not_mem_nil, or_false] at hf
  rcases hv with ⟨hne, s, rfl⟩ | ⟨rfl, n, rfl, h1, h2⟩
  · rcases hf with rfl | rfl | rfl | rfl | rfl | rfl
    all_goals first
      | exact absurd rfl hne
      | rfl
  · have hw : wrapInt n = n := by
      unfold wrapInt
      omega
    have : program (replaceInit "mqtt_port" (.int n) credentials_example_h)
        = some (setValue "mqtt_port" (.int (wrapInt n)) bootEnv) := rfl
    rw [this, hw]
    rfl

/-- With the guard symbol defined, an inclusion changes nothing. -/
theorem includeFile_guarded (tu : TU) (h : "CREDENTIALS_H" ∈ tu.defined) :
    includeFile credentials_example_h tu = some tu := by
  simp [includeFile, credentials_example_h, ppLines, ppLine, activeGroup, h]

/-- With the guard symbol not defined, an inclusion defines it and emits the six
declarations. -/
theorem includeFile_fresh (tu : TU) (h : "CREDENTIALS_H" ∉ tu.defined) :
    includeFile credentials_example_h tu = some
      ⟨"CREDENTIALS_H" :: tu.defined,
       tu.decls ++ [ssid, password, mqtt_server, mqtt_port, mqtt_user, mqtt_password]⟩ := by
  simp [includeFile, credentials_example_h, ppLines, ppLine, activeGroup, h]

/-- With the guard symbol defined, any number of inclusions changes nothing. -/
theorem includeTimes_guarded (n : Nat) (tu : TU) (h : "CREDENTIALS_H" ∈ tu.defined) :
    includeTimes credentials_example_h n tu = some tu := by
  induction n with
  | zero => rfl
  | succ k ih => simp [includeTimes, includeFile_guarded tu h, ih]

/-! ## The claims -/

/-- C1: the port the header declares, `mqtt_port`, reads 1883 in the firmware. -/
theorem C1_mqtt_port_is_1883 :
    mqtt_port.init = .int 1883 ∧
    readField credentials_example_h "mqtt_port" = some (.int 1883) := by
  decide

/-- C2: the record built from the header has exactly six fields, with the values
`ssid = "VOTRE_SSID"`, `password = "VOTRE_PASSWORD"`, `mqtt_server = "192.168.1.100"`,
`mqtt_port = 1883`, `mqtt_user = ""` and `mqtt_password = ""`. -/
theorem C2_record_six_fields :
    record credentials_example_h = some
      [("ssid", .cstr "VOTRE_SSID"), ("password", .cstr "VOTRE_PASSWORD"),
       ("mqtt_server", .cstr "192.168.1.100"), ("mqtt_port", .int 1883),
       ("mqtt_user", .cstr ""), ("mqtt_password", .cstr "")] ∧
    (declaredNames credentials_example_h).length = 6 := by
  decide

/-- C4: the declared `mqtt_port` is a valid TCP port: it lies in 1..65535, so it is
not zero and is unchanged by truncation to 16 bits. -/
theorem C4_mqtt_port_valid :
    ∃ p : Int, readField credentials_example_h "mqtt_port" = some (.int p) ∧
      1 ≤ p ∧ p ≤ 65535 ∧ p ≠ 0 ∧ p % 65536 = p :=
  ⟨1883, by decide, by decide, by decide, by decide, by decide⟩

/-- C5: `mqtt_user` and `mqtt_password` both read as the empty string, which under
the rule "anonymous exactly when user and password are empty" is an anonymous
connection. -/
theorem C5_anonymous :
    ∃ u p : Value, readField credentials_example_h "mqtt_user" = some u ∧
      readField credentials_example_h "mqtt_password" = some p ∧
      u = .cstr "" ∧ p = .cstr "" ∧ anonymousConnection u p = true :=
  ⟨.cstr "", .cstr "", by decide, by decide, rfl, rfl, by decide⟩

/-- C6: the declared `mqtt_server` is a dotted-quad IPv4 address: split on dots it
gives exactly four non-empty fields of decimal digits, denoting 192, 168, 1, 100,
each in 0..255. -/
theorem C6_server_dotted_quad :
    ∃ s : String, readField credentials_example_h "mqtt_server" = some (.cstr s) ∧
      isDottedQuad s = true ∧
      (splitOnDot s.toList).map decimalValue = [192, 168, 1, 100] :=
  ⟨"192.168.1.100", by decide, by decide, by decide⟩

/-- C7: the WiFi credentials the header declares are not empty: `ssid` and
`password` both have a positive length. -/
theorem C7_wifi_nonempty :
    ∃ s p : String, readField credentials_example_h "ssid" = some (.cstr s) ∧
      readField credentials_example_h "password" = some (.cstr p) ∧
      0 < s.length ∧ 0 < p.length :=
  ⟨"VOTRE_SSID", "VOTRE_PASSWORD", by decide, by decide, by decide, by decide⟩

/-- C9, as the claim states it, fails in three ways. A literal that `int` cannot
hold is not kept: with the initializer of `mqtt_port` replaced by `4294969179` a
read gives 1883. A string literal with a NUL inside is not read whole: `"ab\0cd"`
is read as the C string `"ab"`. Not every read gives the initializer: after the
accepted statement `ssid = "AUTRE";` a read of `ssid` gives `"AUTRE"`. -/
theorem C9_literal_not_verbatim :
    (readField (replaceInit "mqtt_port" (.int 4294969179) credentials_example_h) "mqtt_port"
        = some (.int 1883) ∧
      readField (replaceInit "mqtt_port" (.int 4294969179) credentials_example_h) "mqtt_port"
        ≠ some (literalValue (.int 4294969179))) ∧
    ((readField (replaceInit "ssid" (.str "ab\x00cd") credentials_example_h) "ssid").map observe
        = some (.cstr "ab") ∧
      (readField (replaceInit "ssid" (.str "ab\x00cd") credentials_example_h) "ssid").map observe
        ≠ some (literalValue (.str "ab\x00cd"))) ∧
    ((program (replaceInit "ssid" (.str "MonReseau") credentials_example_h)).bind
        (run [.assign "ssid" (.str "AUTRE")])).bind (fun env => read env "ssid")
      = some (.cstr "AUTRE") := by
  decide

/-- C9, amended. For each of the six fields and each literal `v` of the field's
type that the type holds unchanged (a string literal with no NUL inside for the
five text fields, an integer literal in the range of the 32-bit `int` for
`mqtt_port`), the firmware built from the header with that field's initializer
replaced by `v` reads `v` from the field. After every accepted sequence of
statements `x = literal;`, `x = y;`, `x[i] = c;`: if none writes to the field, a
read of the field gives `v` verbatim, also as a C string; if none copies from the
field, the firmware built from the unedited header accepts the same sequence and
every other name reads the same in both. -/
theorem C9_replace_verbatim (f : String) (v : Literal)
    (hf : f ∈ declaredNames credentials_example_h)
    (hv : (f ≠ "mqtt_port" ∧ ∃ s, v = .str s ∧ Char.ofNat 0 ∉ s.toList) ∨
      (f = "mqtt_port" ∧ ∃ n : Int, v = .int n ∧ -2147483648 ≤ n ∧ n ≤ 2147483647)) :
    readField (replaceInit f v credentials_example_h) f = some (literalValue v) ∧
    ∀ (prog : List Stmt) (env : Env),
      (program (replaceInit f v credentials_example_h)).bind (run prog) = some env →
      ((∀ s ∈ prog, s.target ≠ f) →
        read env f = some (literalValue v) ∧
        (read env f).map observe = some (literalValue v)) ∧
      ((∀ s ∈ prog, s.copiesFrom f = false) →
        ∃ env0, (program credentials_example_h).bind (run prog) = some env0 ∧
          ∀ g, g ≠ f → read env g = read env0 g) := by
  have hv' : (f ≠ "mqtt_port" ∧ ∃ s, v = .str s) ∨
      (f = "mqtt_port" ∧ ∃ n : Int, v = .int n ∧ -2147483648 ≤ n ∧ n ≤ 2147483647) := by
    rcases hv with ⟨h1, s, h2, _⟩ | h
    · exact Or.inl ⟨h1, s, h2⟩
    · exact Or.inr h
  have hp := program_replaceInit f v hf hv'
  have hobs : observe (literalValue v) = literalValue v := by
    rcases hv with ⟨_, s, rfl, hs⟩ | ⟨_, n, rfl, _, _⟩
    · simp [literalValue, observe, cString_eq_self s hs]
    · rfl
  have hdecl : ∃ t, typeOf bootEnv f = some t := by
    simp only [declaredNames, credentials_example_h, ssid, password, mqtt_server, mqtt_port,
      mqtt_user, mqtt_password, List.mem_cons, List.mem_singleton, List.not_mem_nil,
      or_false] at hf
    rcases hf with rfl | rfl | rfl | rfl | rfl | rfl <;> exact ⟨_, rfl⟩
  obtain ⟨t, htf⟩ := hdecl
  have hread1 : read (setValue f (literalValue v) bootEnv) f = some (literalValue v) := by
    rw [read_setValue_self, htf]
    rfl
  have hag : agreeOff f (setValue f (literalValue v) bootEnv) bootEnv :=
    ⟨fun y => typeOf_setValue f _ bootEnv y, fun g hg => read_setValue_ne f _ bootEnv g hg⟩
  have ht1 : headerTyped (setValue f (literalValue v) bootEnv) :=
    fun y t' h => headerTyped_boot y t' (by rw [← typeOf_setValue f _ bootEnv y]; exact h)
  refine ⟨by simp [readField, hp, hread1], fun prog env h => ?_⟩
  simp only [hp, Option.some_bind] at h
  refine ⟨fun hn => ?_, fun hn => ?_⟩
  · have hr : read env f = some (literalValue v) := by
      rw [run_read_ne f prog _ env hn h, hread1]
    exact ⟨hr, by rw [hr]; simp [hobs]⟩
  · obtain ⟨env0, hr, hfin⟩ := run_agree f prog _ bootEnv env ht1 hag hn h
    exact ⟨env0, by simp [program_header, hr], hfin.2⟩

/-- C9, amended, at `ssid` replaced by `"MonReseau"` and the program
`mqtt_user = password;`. -/
theorem C9_replace_verbatim_witness :
    "ssid" ∈ declaredNames credentials_example_h ∧
    Char.ofNat 0 ∉ "MonReseau".toList ∧
    readField (replaceInit "ssid" (.str "MonReseau") credentials_example_h) "ssid"
      = some (.cstr "MonReseau") ∧
    (program (replaceInit "ssid" (.str "MonReseau") credentials_example_h)).bind
      (run [.copy "mqtt_user" "password"]) = some
        [⟨"ssid", constCharPtr, .cstr "MonReseau"⟩,
         ⟨"password", constCharPtr, .cstr "VOTRE_PASSWORD"⟩,
         ⟨"mqtt_server", constCharPtr, .cstr "192.168.1.100"⟩,
         ⟨"mqtt_port", constInt, .int 1883⟩,
         ⟨"mqtt_user", constCharPtr, .cstr "VOTRE_PASSWORD"⟩,
         ⟨"mqtt_password", constCharPtr, .cstr ""⟩] ∧
    ∃ env0, (program credentials_example_h).bind (run [.copy "mqtt_user" "password"])
        = some env0 ∧
      ∀ g, g ≠ "ssid" → read
        [⟨"ssid", constCharPtr, .cstr "MonReseau"⟩,
         ⟨"password", constCharPtr, .cstr "VOTRE_PASSWORD"⟩,
         ⟨"mqtt_server", constCharPtr, .cstr "192.168.1.100"⟩,
         ⟨"mqtt_port", constInt, .int 1883⟩,
         ⟨"mqtt_user", constCharPtr, .cstr "VOTRE_PASSWORD"⟩,
         ⟨"mqtt_password", constCharPtr, .cstr ""⟩] g = read env0 g :=
  ⟨by decide, by decide,
   (C9_replace_verbatim "ssid" (.str "MonReseau") (by decide)
      (Or.inl ⟨by decide, "MonReseau", rfl, by decide⟩)).1,
   by decide,
   ((C9_replace_verbatim "ssid" (.str "MonReseau") (by decide)
      (Or.inl ⟨by decide, "MonReseau", rfl, by decide⟩)).2
        [.copy "mqtt_user" "password"] _ (by decide)).2 (by decide)⟩

/-- C10: inclusion of the header is idempotent in a translation unit: once
`CREDENTIALS_H` is defined an inclusion contributes nothing, so `n ≥ 1` inclusions
in a row leave the translation unit as one inclusion does, and in a unit that
starts empty that is the six declarations of the header. -/
theorem C10_include_idempotent (n : Nat) (hn : 1 ≤ n) (tu : TU) :
    includeTimes credentials_example_h n tu = includeFile credentials_example_h tu ∧
    ("CREDENTIALS_H" ∈ tu.defined → includeFile credentials_example_h tu = some tu) ∧
    (includeTimes credentials_example_h n TU.empty).map (fun t => t.decls)
      = some [ssid, password, mqtt_server, mqtt_port, mqtt_user, mqtt_password] := by
  obtain ⟨k, rfl⟩ : ∃ k, n = k + 1 := ⟨n - 1, by omega⟩
  have key : ∀ t : TU, includeTimes credentials_example_h (k + 1) t
      = includeFile credentials_example_h t := by
    intro t
    by_cases h : "CREDENTIALS_H" ∈ t.defined
    · rw [includeTimes_guarded (k + 1) t h, includeFile_guarded t h]
    · simp only [includeTimes, includeFile_fresh t h, Option.some_bind]
      exact includeTimes_guarded k _ (List.mem_cons_self _ _)
  refine ⟨key tu, includeFile_guarded tu, ?_⟩
  rw [key]
  decide

/-- C10 at three inclusions into an empty translation unit. -/
theorem C10_include_idempotent_witness :
    1 ≤ 3 ∧
    includeTimes credentials_example_h 3 TU.empty
      = includeFile credentials_example_h TU.empty ∧
    (includeTimes credentials_example_h 3 TU.empty).map (fun t => t.decls)
      = some [ssid, password, mqtt_server, mqtt_port, mqtt_user, mqtt_password] :=
  ⟨by decide, (C10_include_idempotent 3 (by decide) TU.empty).1,
   (C10_include_idempotent 3 (by decide) TU.empty).2.2⟩

end Credentials
